import Mathlib

/-!
Verification of the conversational-context and follow-up resolution engine of
the Slack summarizer bot.  The definitions below are a shallow embedding of

  * src/bot/utils/intent_recognition.py   (IntentRecognizer)
  * src/bot/utils/conversation_state.py   (ConversationContext, ConversationStateManager)
  * src/bot/handlers/conversation_handler.py  (the FOLLOW_UP branch of
    ConversationHandler.handle_message)
  * src/bot/services/gemini_service.py    (GeminiService.generate_focused_summary)

Text is modelled as List Char (one entry per Unicode code point, matching
Python string indexing).  Python str.lower and str.strip are modelled for the
ASCII range, which covers every pattern literal and every message constant in
the source.  Wall-clock time is modelled as a natural number of seconds, so
the five-minute validity window of a conversation context is 300.
-/

namespace SlackBot

/- ## Python string primitives -/

/-- ASCII whitespace recognized by the Python regex class backslash-s and by
str.strip with no arguments. -/
def isPySpace (c : Char) : Bool :=
  c == ' ' || c == '\t' || c == '\n' || c == '\x0d' || c == '\x0b' || c == '\x0c'

/-- ASCII fragment of Python str.lower, applied code point by code point. -/
def pyLowerChar : Char → Char
  | 'A' => 'a' | 'B' => 'b' | 'C' => 'c' | 'D' => 'd' | 'E' => 'e' | 'F' => 'f'
  | 'G' => 'g' | 'H' => 'h' | 'I' => 'i' | 'J' => 'j' | 'K' => 'k' | 'L' => 'l'
  | 'M' => 'm' | 'N' => 'n' | 'O' => 'o' | 'P' => 'p' | 'Q' => 'q' | 'R' => 'r'
  | 'S' => 's' | 'T' => 't' | 'U' => 'u' | 'V' => 'v' | 'W' => 'w' | 'X' => 'x'
  | 'Y' => 'y' | 'Z' => 'z'
  | c => c

/-- Uppercase ASCII letter test. -/
def isUpperAscii (c : Char) : Bool :=
  match c with
  | 'A' | 'B' | 'C' | 'D' | 'E' | 'F' | 'G' | 'H' | 'I' | 'J' | 'K' | 'L' | 'M'
  | 'N' | 'O' | 'P' | 'Q' | 'R' | 'S' | 'T' | 'U' | 'V' | 'W' | 'X' | 'Y' | 'Z' => true
  | _ => false

/-- Python str.lower on a whole string. -/
def pyLower (l : List Char) : List Char := l.map pyLowerChar

/-- Python str.strip with no arguments: remove leading and trailing whitespace. -/
def pyStrip (l : List Char) : List Char :=
  ((l.dropWhile isPySpace).reverse.dropWhile isPySpace).reverse

/-- Python str.find: index of the leftmost occurrence of sub in hay, if any. -/
def strFind (hay sub : List Char) : Option Nat :=
  if sub.isPrefixOf hay then some 0
  else
    match hay with
    | [] => none
    | _ :: t => (strFind t sub).map (· + 1)

/-- Python str.find with a start argument: leftmost occurrence at index ≥ start. -/
def strFindFrom (hay sub : List Char) (start : Nat) : Option Nat :=
  (strFind (hay.drop start) sub).map (· + start)

/-- Python substring containment, the `in` operator on strings. -/
def containsSub (sub hay : List Char) : Bool :=
  (strFind hay sub).isSome

/-- Python s.split(sep)[0]: the prefix of l before the first occurrence of sep
(the whole string when sep does not occur). -/
def takeUntil (l sep : List Char) : List Char :=
  match strFind l sep with
  | some i => l.take i
  | none => l

end SlackBot

namespace SlackBot

/- ## Conversation state (src/bot/utils/conversation_state.py) -/

/-- One enriched Slack message as consumed by the core: a dict with user,
text and ts entries. -/
structure MsgRec where
  user : String
  text : String
  ts : String
deriving DecidableEq, Repr

/-- A summary record: a dict carrying the generated text under the key
text.  text = none models a record in which that key is missing (or the
record being empty), which the code tolerates. -/
structure SummaryRec where
  text : Option String
deriving DecidableEq, Repr

/-- ConversationContext (conversation_state.py lines 5-16).  The constructor
stamps the record with the current time; here the timestamp is an explicit
field in seconds. -/
structure ConversationContext where
  channel_name : String
  channel_id : String
  last_summary : SummaryRec
  last_messages : List MsgRec
  thread_ts : Option String
  timestamp : Nat
deriving DecidableEq, Repr

/-- Five minutes, the context validity window, in seconds. -/
def fiveMinutes : Nat := 300

/-- ConversationContext.is_context_valid: the context is valid while
now - creation time is under five minutes (conversation_state.py line 16). -/
def ConversationContext.is_context_valid (c : ConversationContext) (now : Nat) : Bool :=
  now - c.timestamp < fiveMinutes

/-- The contexts dictionary of ConversationStateManager: user id to context. -/
def ContextStore := String → Option ConversationContext

/-- ConversationStateManager.update_context (lines 52-60): unconditionally
replace the context stored for user_id with a fresh record stamped now. -/
def update_context (store : ContextStore) (user_id : String)
    (channel_name channel_id : String) (summary : SummaryRec)
    (messages : List MsgRec) (thread_ts : Option String) (now : Nat) : ContextStore :=
  fun u =>
    if u = user_id then
      some { channel_name := channel_name, channel_id := channel_id,
             last_summary := summary, last_messages := messages,
             thread_ts := thread_ts, timestamp := now }
    else store u

/-- ConversationStateManager.get_context (lines 62-67): return the stored
context only when present and still valid. -/
def get_context (store : ContextStore) (now : Nat) (user_id : String) :
    Option ConversationContext :=
  match store user_id with
  | some c => if c.is_context_valid now then some c else none
  | none => none

/- ## Section extraction (conversation_state.py lines 69-112) -/

/-- The section_headers table of extract_summary_section: each section type
maps to a list of header aliases appearing in the stored summary text. -/
def section_headers : List (String × List String) :=
  [("contributors", ["Contributors"]),
   ("urgent", ["Needs Immediate Attention 🚨"]),
   ("topics", ["Key Topics"]),
   ("decisions", ["Decisions & Actions"]),
   ("questions", ["Status & Questions"])]

/-- Every header alias of every section type, in table order; these all act
as delimiters ending a section. -/
def allHeaders : List String :=
  (section_headers.map Prod.snd).flatten

/-- The inner double loop of extract_summary_section computing next_idx: the
smallest index at or after start where any header alias occurs; none models
the initial float inf surviving the loop. -/
def nextIdx (doc : List Char) (start : Nat) : Option Nat :=
  allHeaders.foldl
    (fun acc h =>
      match strFindFrom doc h.data start with
      | some idx =>
        match acc with
        | some cur => if idx < cur then some idx else acc
        | none => some idx
      | none => acc)
    none

/-- The per-alias loop body of extract_summary_section: for each header alias
present in the text, slice from just after the alias to the next header (or
to the end, cut at the first Summary Details marker), strip, and return the
first non-empty result. -/
def extractLoop (doc : List Char) : List String → Option (List Char)
  | [] => none
  | h :: rest =>
    if containsSub h.data doc then
      let start := (strFind doc h.data).getD 0 + h.data.length
      let content :=
        match nextIdx doc start with
        | none => pyStrip (takeUntil (doc.drop start) ("Summary Details".data))
        | some nxt => pyStrip ((doc.drop start).take (nxt - start))
      if content = [] then extractLoop doc rest else some content
    else extractLoop doc rest

/-- The textual part of extract_summary_section, acting on the stored summary
text and the requested section type. -/
def extractSection (doc : List Char) (section_type : String) : Option (List Char) :=
  let headers := ((section_headers.find? (fun p => p.fst = section_type)).map Prod.snd).getD []
  extractLoop doc headers

/-- ConversationStateManager.extract_summary_section (lines 69-112): look the
context up, read the stored summary text, and extract the requested section.
A missing context, a summary without text, or empty text all yield none. -/
def extract_summary_section (store : ContextStore) (now : Nat)
    (user_id : String) (section_type : String) : Option String :=
  match get_context store now user_id with
  | none => none
  | some context =>
    match context.last_summary.text with
    | none => none
    | some txt =>
      if txt.data = [] then none
      else (extractSection txt.data section_type).map String.mk

/- ## Intent recognition (src/bot/utils/intent_recognition.py) -/

/-- A deterministic matcher for one regex fragment anchored at the current
position: it consumes input and returns the remaining suffix on success.
The source patterns are simple enough (literals, one-character options,
alternations of literals, greedy whitespace runs, one greedy trailing
capture) that this deterministic reading coincides with Python re. -/
def Parser := List Char → Option (List Char)

/-- Literal text in a pattern. -/
def lit (w : String) : Parser := fun l =>
  if w.data.isPrefixOf l then some (l.drop w.data.length) else none

/-- The regex fragment backslash-s-plus: one or more whitespace characters,
matched greedily.  In every source pattern the following fragment starts
with a non-whitespace character, so greedy matching never needs to give
characters back. -/
def ws1 : Parser := fun l =>
  match l with
  | [] => none
  | c :: _ => if isPySpace c then some (l.dropWhile isPySpace) else none

/-- Sequencing of pattern fragments. -/
def pseq (p q : Parser) : Parser := fun l => (p l).bind q

/-- An optional group followed by continuation k, with the backtracking of
Python re: first try to take the group, and if the rest of the pattern then
fails, retry without the group. -/
def optP (g : Parser) (k : Parser) : Parser := fun l =>
  match g l with
  | some l1 =>
    match k l1 with
    | some r => some r
    | none => k l
  | none => k l

/-- An ordered alternation of literal words followed by continuation k, with
the backtracking of Python re: alternatives are tried left to right and the
continuation may reject one alternative in favour of a later one. -/
def altP (ws : List String) (k : Parser) : Parser := fun l =>
  ws.foldr
    (fun w acc =>
      match (lit w l).bind k with
      | some r => some r
      | none => acc)
    none

/-- Words of a pattern separated by backslash-s-plus. -/
def phraseSep : List String → Parser
  | [] => fun l => some l
  | [w] => lit w
  | w :: ws => pseq (lit w) (pseq ws1 (phraseSep ws))

/-- The recurring fragment: the word what, an optional apostrophe, then s. -/
def whatS : Parser := pseq (lit "what") (optP (lit "\x27") (lit "s"))

/-- The fragment: the word who, an optional apostrophe, then s. -/
def whoS : Parser := pseq (lit "who") (optP (lit "\x27") (lit "s"))

/-- A regex word-or-dash character: the class of word characters plus the
hyphen, ASCII fragment. -/
def wordDash (c : Char) : Bool :=
  c.isAlphanum || c == '_' || c == '-'

/-- The channel capture tail of every channel-summary pattern: an optional
hash sign followed by a greedy non-empty run of word-or-dash characters,
whose text is the captured channel token. -/
def capChan (l : List Char) : Option (List Char) :=
  let l1 := if l.head? = some '#' then l.tail else l
  let tok := l1.takeWhile wordDash
  if tok = [] then none else some tok

/-- A whole channel-summary pattern: its word prefix, whitespace, then the
channel capture.  The result is the captured token, not the remainder. -/
def chanPat (pre : Parser) : List Char → Option (List Char) :=
  fun l => (pre l).bind (fun l1 => (ws1 l1).bind capChan)

def chanPat1 : List Char → Option (List Char) :=
  chanPat (pseq whatS (pseq ws1 (phraseSep ["happening", "in"])))

def chanPat2 : List Char → Option (List Char) :=
  chanPat (lit "summarize")

def chanPat3 : List Char → Option (List Char) :=
  chanPat (phraseSep ["update", "on"])

def chanPat4 : List Char → Option (List Char) :=
  chanPat (pseq whatS (pseq ws1 (phraseSep ["new", "in"])))

def chanPat5 : List Char → Option (List Char) :=
  chanPat (pseq whatS (pseq ws1 (phraseSep ["going", "on", "in"])))

/-- Python re.search: try the anchored matcher at every position from the
left and return the first success. -/
def searchP {α : Type} (p : List Char → Option α) : List Char → Option α
  | [] => p []
  | x :: t =>
    match p (x :: t) with
    | some r => some r
    | none => searchP p t

/-- First defined value in a list of options, mirroring a loop that returns
on its first hit. -/
def firstSome {α : Type} : List (Option α) → Option α
  | [] => none
  | o :: t =>
    match o with
    | some a => some a
    | none => firstSome t

/-- The channel-summary loop of recognize_intent: the five patterns are
searched in order and the first one to match anywhere yields its capture. -/
def channelSearch (l : List Char) : Option (List Char) :=
  firstSome
    [searchP chanPat1 l, searchP chanPat2 l, searchP chanPat3 l,
     searchP chanPat4 l, searchP chanPat5 l]

def threadPat1 : Parser := phraseSep ["summarize", "thread"]
def threadPat2 : Parser := phraseSep ["thread", "summary"]
def threadPat3 : Parser := pseq whatS (pseq ws1 (phraseSep ["happening", "in", "this", "thread"]))
def threadPat4 : Parser := pseq whatS (pseq ws1 (phraseSep ["this", "thread", "about"]))

/-- The thread-summary loop of recognize_intent. -/
def threadSearch (l : List Char) : Bool :=
  (firstSome
    [searchP threadPat1 l, searchP threadPat2 l,
     searchP threadPat3 l, searchP threadPat4 l]).isSome

def fuContrib1 : Parser :=
  pseq (lit "who") (pseq ws1 (altP ["is", "are", "were"]
    (pseq ws1 (optP (pseq (lit "the") ws1) (optP (pseq (lit "most") ws1)
      (altP ["active", "contributing"] (fun l => some l)))))))
def fuContrib2 : Parser := phraseSep ["active", "contributors"]
def fuContrib3 : Parser := phraseSep ["who", "contributed"]
def fuContrib4 : Parser := pseq whoS (pseq ws1 (lit "active"))
def fuContrib5 : Parser := pseq whoS (pseq ws1 (lit "participating"))

def fuUrgent1 : Parser := phraseSep ["urgent", "items"]
def fuUrgent2 : Parser := pseq whatS (pseq ws1 (lit "urgent"))
def fuUrgent3 : Parser := phraseSep ["what", "needs", "attention"]
def fuUrgent4 : Parser := pseq whatS (pseq ws1 (lit "important"))
def fuUrgent5 : Parser := phraseSep ["what", "are", "the", "urgent", "items"]
def fuUrgent6 : Parser := pseq whatS (pseq ws1 (lit "critical"))

def fuTopics1 : Parser :=
  pseq (lit "what") (pseq ws1 (altP ["topics", "was", "were"] (pseq ws1 (lit "discussed"))))
def fuTopics2 : Parser := phraseSep ["main", "topics"]
def fuTopics3 : Parser := phraseSep ["key", "topics"]
def fuTopics4 : Parser := phraseSep ["what", "did", "they", "talk", "about"]
def fuTopics5 : Parser := pseq whatS (pseq ws1 (phraseSep ["being", "discussed"]))

def fuDec1 : Parser :=
  pseq (lit "what") (pseq ws1 (altP ["decisions", "actions"] (pseq ws1 (phraseSep ["were", "made"]))))
def fuDec2 : Parser := phraseSep ["any", "decisions"]
def fuDec3 : Parser := phraseSep ["what", "was", "decided"]
def fuDec4 : Parser := phraseSep ["what", "are", "the", "next", "steps"]
def fuDec5 : Parser := phraseSep ["action", "items"]

def fuQ1 : Parser := phraseSep ["what", "questions", "were", "asked"]
def fuQ2 : Parser := phraseSep ["open", "questions"]
def fuQ3 : Parser := phraseSep ["what", "needs", "answers"]
def fuQ4 : Parser := phraseSep ["unresolved", "questions"]
def fuQ5 : Parser := pseq whatS (pseq ws1 (lit "unclear"))

/-- Does any pattern of one follow-up group match somewhere in the text? -/
def groupSearch (pats : List Parser) (l : List Char) : Bool :=
  pats.any (fun p => (searchP p l).isSome)

/-- The follow-up loop of recognize_intent: groups are visited in the
insertion order of the source dictionary and the first group with a matching
pattern names the section type. -/
def followUpSearch (l : List Char) : Option String :=
  if groupSearch [fuContrib1, fuContrib2, fuContrib3, fuContrib4, fuContrib5] l then
    some "contributors"
  else if groupSearch [fuUrgent1, fuUrgent2, fuUrgent3, fuUrgent4, fuUrgent5, fuUrgent6] l then
    some "urgent"
  else if groupSearch [fuTopics1, fuTopics2, fuTopics3, fuTopics4, fuTopics5] l then
    some "topics"
  else if groupSearch [fuDec1, fuDec2, fuDec3, fuDec4, fuDec5] l then
    some "decisions"
  else if groupSearch [fuQ1, fuQ2, fuQ3, fuQ4, fuQ5] l then
    some "questions"
  else none

/-- The greeting words of the anchored greeting pattern. -/
def greetWords : List String :=
  ["hi", "hello", "hey", "good morning", "good afternoon", "good evening"]

/-- The greeting rule: re.match of one greeting word followed only by
whitespace or exclamation marks up to the end of the text.  No greeting word
is a prefix of another, so trying each word independently coincides with the
ordered alternation of the source pattern. -/
def greetingMatch (l : List Char) : Bool :=
  greetWords.any (fun w =>
    w.data.isPrefixOf l &&
      (l.drop w.data.length).all (fun c => isPySpace c || c == '!'))

/-- The Intent enumeration of intent_recognition.py. -/
inductive Intent
  | greeting
  | channel_summary
  | thread_summary
  | follow_up
  | feedback
  | help
  | unknown
deriving DecidableEq, Repr

/-- The dictionary returned by recognize_intent: the intent tag plus its
optional channel and section_type entries. -/
structure IntentResult where
  intent : Intent
  channel : Option String := none
  section_type : Option String := none
deriving DecidableEq, Repr

/-- IntentRecognizer.recognize_intent (intent_recognition.py lines 75-115):
lowercase and strip the text, then run the ordered first-match-wins cascade
greeting, channel summary, thread summary, follow-up, feedback, help,
unknown. -/
def recognize_intent (text : String) : IntentResult :=
  let t := pyStrip (pyLower text.data)
  if greetingMatch t then { intent := .greeting }
  else
    match channelSearch t with
    | some ch => { intent := .channel_summary, channel := some (String.mk ch) }
    | none =>
      if threadSearch t then { intent := .thread_summary }
      else
        match followUpSearch t with
        | some st => { intent := .follow_up, section_type := some st }
        | none =>
          if containsSub ("feedback".data) t then { intent := .feedback }
          else if t = "help".data || t = "what can you do".data || t = "how do you work".data then
            { intent := .help }
          else { intent := .unknown }

/- ## The summarizer collaborator (src/bot/services/gemini_service.py) -/

/-- The focus_prompts table of generate_focused_summary (lines 143-173),
keyed by focus type. -/
def focus_prompts : List (String × String) :=
  [("contributors", "\n                    Return exactly one bullet point about participant count and engagement.\n                    Format:\n                    • [Number] users actively involved in the discussion.\n                    "),
   ("urgent", "\n                    Return 1-2 bullet points about urgent items.\n                    Format:\n                    • [First urgent item with period.]\n                    • [Second urgent item with period.]\n                    "),
   ("topics", "\n                    Return 2-3 bullet points about main topics.\n                    Format:\n                    • [First topic with period.]\n                    • [Second topic with period.]\n                    • [Third topic with period.]\n                    "),
   ("decisions", "\n                    Return 1-2 bullet points about decisions/actions.\n                    Format:\n                    • [First decision with period.]\n                    • [Second decision with period.]\n                    "),
   ("questions", "\n                    Return exactly these two bullet points:\n                    • Current Status: [One line status with period.]\n                    • Open Questions: [Key questions with question marks?]\n                    ")]

/-- The _format_messages helper (lines 235-243): one line per message of the
form user (ts): text, joined with newlines. -/
def format_messages (messages : List MsgRec) : String :=
  String.intercalate "\n"
    (messages.map (fun m => m.user ++ " (" ++ m.ts ++ "): " ++ m.text))

/-- The prompt assembled by generate_focused_summary (lines 175-185).  The
source computes _format_messages(messages) as well but never interpolates it
into this prompt. -/
def buildFocusedPrompt (focus_type : String) (context : Option String) : String :=
  let context_str :=
    match context with
    | some c => if c = "" then "" else " in " ++ c
    | none => ""
  "\n            Please analyze these Slack messages" ++ context_str ++
    " focusing on " ++ focus_type ++ ".\n            " ++
    (((focus_prompts.find? (fun p => p.fst = focus_type)).map Prod.snd).getD "") ++
    "\n            \n            IMPORTANT:\n            1. Use bullet points with the exact bullet character \"•\"\n            2. Add a line break after each point\n            3. End each point with proper punctuation\n            4. Keep formatting exactly as shown\n            "

/-- GeminiService.generate_focused_summary (lines 135-192), parameterized by
the underlying model call, which may return text or raise.  An empty message
list short-circuits to none; a raised error is caught by the surrounding
try/except and converted to none; a successful model response is wrapped as
a record whose text entry holds the response text. -/
def generate_focused_summary (model : String → Except String String)
    (messages : List MsgRec) (focus_type : String) (context : Option String) :
    Option SummaryRec :=
  if messages = [] then none
  else
    match model (buildFocusedPrompt focus_type context) with
    | Except.ok t => some { text := some t }
    | Except.error _ => none

/- ## The follow-up resolver (conversation_handler.py lines 60-82) -/

/-- One invocation of the summarizer collaborator, recording the arguments
handle_message passed to generate_focused_summary. -/
structure FocusCall where
  messages : List MsgRec
  focus_type : String
  channel_name : String
deriving DecidableEq, Repr

/-- The abstract summarizer collaborator as seen from handle_message:
messages, focus type and channel name in, an optional summary record out. -/
def GeminiFn := List MsgRec → String → String → Option SummaryRec

def needContextMsg : String :=
  ":thinking_face: I need some context first. Try asking for a channel or thread summary, then I can answer follow-up questions!"

def clarifyMsg : String :=
  ":thinking_face: I\x27m not sure what specific information you\x27re looking for. Try asking about contributors, urgent items, topics, decisions, or questions!"

def foundMark : String := ":mag: Here\x27s what I found:\n"

def couldntFindMsg : String :=
  ":warning: I couldn\x27t find that information in the current context."

def troubleMsg : String :=
  ":warning: I had trouble analyzing that aspect of the conversation."

/-- The regeneration tail of the FOLLOW_UP branch (lines 74-82): call the
collaborator once and turn its answer into the response text.  The second
component records the collaborator calls that were made. -/
def followUpRegen (gemini : GeminiFn) (context : ConversationContext)
    (section_type : String) : String × List FocusCall :=
  let call : FocusCall :=
    { messages := context.last_messages, focus_type := section_type,
      channel_name := context.channel_name }
  match gemini context.last_messages section_type context.channel_name with
  | some focused => (focused.text.getD couldntFindMsg, [call])
  | none => (troubleMsg, [call])

/-- The FOLLOW_UP branch of ConversationHandler.handle_message (lines 60-82),
exposed by the spec as handle_follow_up.  Besides the response string it
returns the list of collaborator invocations, so that claims about the
collaborator being called (or not) are expressible. -/
def handle_follow_up (gemini : GeminiFn) (store : ContextStore) (now : Nat)
    (user_id : String) (section_type : Option String) : String × List FocusCall :=
  match get_context store now user_id with
  | none => (needContextMsg, [])
  | some context =>
    if context.is_context_valid now = false then (needContextMsg, [])
    else
      match section_type with
      | none => (clarifyMsg, [])
      | some st =>
        match extract_summary_section store now user_id st with
        | some content =>
          if content = "" then followUpRegen gemini context st
          else (foundMark ++ content, [])
        | none => followUpRegen gemini context st

/- ## Spec-worded section extraction

The following definitions restate the Section Extractor algorithm in the
words of the specification (section 4.3 and the C4 claim): the section ends
at the earliest occurrence, after the start position, of any alias of any
section type, computed as a minimum over all found positions; with no later
header the section runs to the end of the document or to the Summary Details
marker, whichever is encountered first; the content is trimmed and an empty
trimmed content counts as not found. -/

/-- Spec wording: the earliest occurrence, at or after start, of any header
alias belonging to any of the five section types. -/
def nextHeaderSpec (doc : List Char) (start : Nat) : Option Nat :=
  (allHeaders.filterMap (fun h => strFindFrom doc h.data start)).min?

/-- Spec wording of the per-alias search: on the first alias found, content
begins immediately after the alias, ends at the earliest later header (or at
the end of the document cut at the Summary Details marker), is trimmed, and
counts only when non-empty. -/
def specFirstHit (doc : List Char) : List String → Option (List Char)
  | [] => none
  | a :: rest =>
    match strFind doc a.data with
    | none => specFirstHit doc rest
    | some i =>
      let start := i + a.data.length
      let stop :=
        match nextHeaderSpec doc start with
        | some nxt => nxt
        | none => start + (takeUntil (doc.drop start) ("Summary Details".data)).length
      let content := pyStrip ((doc.drop start).take (stop - start))
      if content = [] then specFirstHit doc rest else some content

/-- The Section Extractor contract as the specification words it. -/
def extractSectionSpec (doc : List Char) (section_type : String) : Option (List Char) :=
  specFirstHit doc
    (((section_headers.find? (fun p => p.fst = section_type)).map Prod.snd).getD [])

/- ## Concrete fixtures used by witnesses and counterexamples -/

/-- A sample enriched message list. -/
def sampleMsgs : List MsgRec :=
  [{ user := "alice", text := "shipping the fix today", ts := "1700000000.000100" }]

/-- The document of the C4 spec example. -/
def docC4 : String :=
  "Contributors\n• Alice, Bob participated.\n\nNeeds Immediate Attention 🚨\n• Fix the build."

/-- A context holding the C4 document. -/
def ctxC4 : ConversationContext :=
  { channel_name := "general", channel_id := "C123",
    last_summary := { text := some docC4 }, last_messages := sampleMsgs,
    thread_ts := none, timestamp := 0 }

/-- A one-user store holding ctxC4. -/
def storeC4 : ContextStore := fun u => if u = "u1" then some ctxC4 else none

/-- A context whose summary lacks the contributors section. -/
def ctxC1 : ConversationContext :=
  { channel_name := "general", channel_id := "C123",
    last_summary := { text := some "Key Topics\n• Deployment." },
    last_messages := sampleMsgs, thread_ts := none, timestamp := 0 }

/-- A one-user store holding ctxC1. -/
def storeC1 : ContextStore := fun u => if u = "u1" then some ctxC1 else none

/-- The call record of the one collaborator invocation made from storeC1. -/
def callC1 : FocusCall :=
  { messages := sampleMsgs, focus_type := "contributors", channel_name := "general" }

/-- The set of response strings produced locally by the follow-up resolver
itself, used to state that nothing else (in particular no raw error) ever
reaches the user when the collaborator fails. -/
def localResponse (r : String) : Prop :=
  r = needContextMsg ∨ r = clarifyMsg ∨ (∃ c, r = foundMark ++ c) ∨ r = troubleMsg

/-- A matcher is character-conservative when every character of its result
already occurs in its input.  This holds both for fragment matchers (whose
result is the remaining suffix) and for capture matchers (whose result is
the captured token). -/
def SubP (p : List Char → Option (List Char)) : Prop :=
  ∀ l r, p l = some r → ∀ c, c ∈ r → c ∈ l

/-- The characters that can occur in a text matched by the greeting rule:
letters of the six greeting words, whitespace, and exclamation marks. -/
def greetChar (c : Char) : Bool :=
  (['h', 'i', 'e', 'l', 'o', 'y', 'g', 'd', 'm', 'r', 'n', 'a', 'f', 't', 'v'] :
    List Char).contains c || isPySpace c || c == '!'

end SlackBot

namespace SlackBot

/- ## Helper lemmas -/

theorem min_of_ite_lt (idx cur : Nat) :
    (if idx < cur then some idx else some cur) = some (min cur idx) := by
  rcases Nat.lt_or_ge idx cur with h | h
  · simp [h, Nat.min_eq_right (Nat.le_of_lt h)]
  · have : ¬ idx < cur := Nat.not_lt.mpr h
    simp [this, Nat.min_eq_left h]

theorem nextIdx_foldl_eq (doc : List Char) (start : Nat) (hs : List String)
    (acc : Option Nat) :
    hs.foldl
      (fun acc h =>
        match strFindFrom doc h.data start with
        | some idx =>
          match acc with
          | some cur => if idx < cur then some idx else acc
          | none => some idx
        | none => acc)
      acc =
    match acc with
    | none => (hs.filterMap (fun h => strFindFrom doc h.data start)).min?
    | some a => some ((hs.filterMap (fun h => strFindFrom doc h.data start)).foldl min a) := by
  induction hs generalizing acc with
  | nil => cases acc <;> simp [List.min?]
  | cons h t ih =>
    cases hfh : strFindFrom doc h.data start with
    | none =>
      cases acc with
      | none => simpa [List.foldl_cons, List.filterMap_cons, hfh] using ih none
      | some a => simpa [List.foldl_cons, List.filterMap_cons, hfh] using ih (some a)
    | some idx =>
      cases acc with
      | none =>
        simp only [List.foldl_cons, List.filterMap_cons, hfh]
        rw [ih (some idx)]
        simp [List.min?]
      | some a =>
        have hstep : (if idx < a then some idx else some a) = some (min a idx) :=
          min_of_ite_lt idx a
        simp only [List.foldl_cons, List.filterMap_cons, hfh]
        rw [hstep, ih (some (min a idx))]

theorem nextIdx_eq_spec (doc : List Char) (start : Nat) :
    nextIdx doc start = nextHeaderSpec doc start := by
  unfold nextIdx nextHeaderSpec
  simpa using nextIdx_foldl_eq doc start allHeaders none

theorem take_length_of_takeUntil (l sep : List Char) :
    l.take (takeUntil l sep).length = takeUntil l sep := by
  unfold takeUntil
  cases h : strFind l sep with
  | none => simp
  | some i =>
    rcases Nat.le_total i l.length with hle | hge
    · simp [List.length_take, Nat.min_eq_left hle]
    · simp [List.length_take, Nat.min_eq_right hge, List.take_length,
        List.take_of_length_le hge]

theorem extractLoop_eq_spec (doc : List Char) (hs : List String) :
    extractLoop doc hs = specFirstHit doc hs := by
  induction hs with
  | nil => rfl
  | cons a rest ih =>
    unfold extractLoop specFirstHit
    cases hfind : strFind doc a.data with
    | none =>
      have hc : containsSub a.data doc = false := by
        unfold containsSub
        simp [hfind]
      simp [hc, hfind, ih]
    | some i =>
      have hc : containsSub a.data doc = true := by
        unfold containsSub
        simp [hfind]
      simp only [hc, hfind, if_true, Option.getD_some]
      rw [nextIdx_eq_spec]
      cases hnext : nextHeaderSpec doc (i + a.data.length) with
      | none =>
        have harith :
            i + a.data.length +
              (takeUntil (doc.drop (i + a.data.length)) ("Summary Details".data)).length -
              (i + a.data.length) =
            (takeUntil (doc.drop (i + a.data.length)) ("Summary Details".data)).length := by
          omega
        rw [harith, take_length_of_takeUntil]
        split <;> simp [ih]
      | some nxt =>
        split <;> simp [ih]

theorem extractSection_eq_spec (doc : List Char) (st : String) :
    extractSection doc st = extractSectionSpec doc st := by
  unfold extractSection extractSectionSpec
  exact extractLoop_eq_spec doc _

theorem get_context_isValid (store : ContextStore) (now : Nat) (user : String)
    (c : ConversationContext) (h : get_context store now user = some c) :
    c.is_context_valid now = true := by
  unfold get_context at h
  cases hs : store user with
  | none => rw [hs] at h; exact absurd h (by simp)
  | some d =>
    rw [hs] at h
    dsimp only at h
    by_cases hv : d.is_context_valid now = true
    · rw [if_pos hv] at h
      cases h
      exact hv
    · rw [if_neg hv] at h
      exact absurd h (by simp)

theorem extractLoop_ne_nil (doc : List Char) (hs : List String) (content : List Char)
    (h : extractLoop doc hs = some content) : content ≠ [] := by
  induction hs with
  | nil => exact absurd h (by simp [extractLoop])
  | cons a rest ih =>
    unfold extractLoop at h
    by_cases hc : containsSub a.data doc = true
    · rw [if_pos hc] at h
      set inner := (match nextIdx doc ((strFind doc a.data).getD 0 + a.data.length) with
        | none =>
          pyStrip (takeUntil (doc.drop ((strFind doc a.data).getD 0 + a.data.length))
            ("Summary Details".data))
        | some nxt =>
          pyStrip ((doc.drop ((strFind doc a.data).getD 0 + a.data.length)).take
            (nxt - ((strFind doc a.data).getD 0 + a.data.length)))) with hinner
      by_cases hcn : inner = []
      · rw [if_pos hcn] at h
        exact ih h
      · rw [if_neg hcn] at h
        cases h
        exact hcn
    · rw [if_neg hc] at h
      exact ih h

theorem extract_nonempty (store : ContextStore) (now : Nat) (user st : String)
    (s : String) (h : extract_summary_section store now user st = some s) :
    s ≠ "" := by
  unfold extract_summary_section at h
  cases hg : get_context store now user with
  | none => rw [hg] at h; exact absurd h (by simp)
  | some ctx =>
    rw [hg] at h
    dsimp only at h
    cases ht : ctx.last_summary.text with
    | none => rw [ht] at h; exact absurd h (by simp)
    | some txt =>
      rw [ht] at h
      dsimp only at h
      by_cases hnil : txt.data = []
      · rw [if_pos hnil] at h
        exact absurd h (by simp)
      · rw [if_neg hnil] at h
        cases he : extractSection txt.data st with
        | none => rw [he] at h; exact absurd h (by simp)
        | some content =>
          rw [he] at h
          have hcne : content ≠ [] := extractLoop_ne_nil txt.data _ content he
          cases h
          intro habs
          exact hcne (by simpa using congrArg String.data habs)

end SlackBot

namespace SlackBot

/- ## Claims C4, C5, C6, C7, C8, C1, C9 -/

/-- C4: extract_summary_section returns, for a valid context with stored
summary text, exactly what the spec algorithm describes: content from just
after the first occurrence of the section header to the earliest later
occurrence of any header of any section type, else to the end of the
document cut at the first Summary Details marker, trimmed, with empty
content treated as absent; on the concrete document of the claim with
section type contributors it yields the bullet line between the two
headers. -/
theorem claimC4 :
    (∀ (doc : List Char) (st : String), extractSection doc st = extractSectionSpec doc st)
    ∧ (∀ (store : ContextStore) (now : Nat) (user st : String)
        (ctx : ConversationContext) (txt : String),
        get_context store now user = some ctx →
        ctx.last_summary.text = some txt →
        txt ≠ "" →
        extract_summary_section store now user st =
          (extractSectionSpec txt.data st).map String.mk) := by
  constructor
  · exact extractSection_eq_spec
  · intro store now user st ctx txt hctx htxt hne
    unfold extract_summary_section
    rw [hctx]
    dsimp only
    rw [htxt]
    dsimp only
    rw [if_neg (fun habs => hne (by simpa using congrArg String.mk habs)),
      extractSection_eq_spec]

/-- Witness for C4 at the concrete document of the claim: the store-level
extraction agrees with the spec algorithm there, and the spec algorithm
produces the expected bullet line. -/
theorem claimC4_witness :
    extract_summary_section storeC4 0 "u1" "contributors" =
      (extractSectionSpec docC4.data "contributors").map String.mk
    ∧ (extractSectionSpec docC4.data "contributors").map String.mk =
      some "• Alice, Bob participated." :=
  ⟨claimC4.2 storeC4 0 "u1" "contributors" ctxC4 docC4 (by decide) rfl (by decide),
   by decide⟩

/-- C5: get_context returns a stored context exactly when it is present and
the query time is within five minutes of its creation time; at or beyond
the boundary the context behaves as absent. -/
theorem claimC5 (store : ContextStore) (user : String) (now : Nat)
    (c : ConversationContext) :
    get_context store now user = some c ↔
      store user = some c ∧ now - c.timestamp < fiveMinutes := by
  unfold get_context
  cases hs : store user with
  | none =>
    simp
  | some d =>
    dsimp only
    by_cases hv : d.is_context_valid now = true
    · rw [if_pos hv]
      constructor
      · rintro h
        cases h
        exact ⟨rfl, by simpa [ConversationContext.is_context_valid] using hv⟩
      · rintro ⟨hd, _⟩
        exact hd
    · rw [if_neg hv]
      constructor
      · rintro h
        exact absurd h (by simp)
      · rintro ⟨hd, hlt⟩
        cases hd
        exact absurd (by simpa [ConversationContext.is_context_valid] using hlt) hv

/-- C6: update_context followed immediately by get_context for the same user
returns a context whose fields are exactly the values written, with the
creation timestamp reset to the write time. -/
theorem claimC6 (store : ContextStore) (user ch_name ch_id : String)
    (summary : SummaryRec) (messages : List MsgRec) (thread_ts : Option String)
    (t : Nat) :
    get_context (update_context store user ch_name ch_id summary messages thread_ts t)
        t user =
      some { channel_name := ch_name, channel_id := ch_id, last_summary := summary,
             last_messages := messages, thread_ts := thread_ts, timestamp := t } := by
  unfold get_context update_context ConversationContext.is_context_valid fiveMinutes
  simp

/-- C7: with no valid context for the user (absent or expired), the FOLLOW_UP
branch returns the fixed need-context guidance and the summarizer
collaborator is never called. -/
theorem claimC7 (gemini : GeminiFn) (store : ContextStore) (now : Nat)
    (user : String) (section_type : Option String)
    (h : get_context store now user = none) :
    handle_follow_up gemini store now user section_type = (needContextMsg, []) := by
  unfold handle_follow_up
  rw [h]

/-- Witness for C7 at a store whose only context is exactly five minutes
old, hence expired, at query time 300. -/
theorem claimC7_witness :
    get_context storeC1 300 "u1" = none
    ∧ handle_follow_up (fun _ _ _ => none) storeC1 300 "u1" (some "topics") =
      (needContextMsg, []) :=
  ⟨by decide, claimC7 (fun _ _ _ => none) storeC1 300 "u1" (some "topics") (by decide)⟩

/-- C8: with a valid context whose stored summary yields a (necessarily
non-empty) extraction for the requested section type, the FOLLOW_UP branch
returns the extracted text behind the fixed found marker and the summarizer
collaborator is not called. -/
theorem claimC8 (gemini : GeminiFn) (store : ContextStore) (now : Nat)
    (user st content : String)
    (h : extract_summary_section store now user st = some content) :
    handle_follow_up gemini store now user (some st) = (foundMark ++ content, []) := by
  have hctx : ∃ ctx, get_context store now user = some ctx := by
    unfold extract_summary_section at h
    cases hg : get_context store now user with
    | none => rw [hg] at h; exact absurd h (by simp)
    | some ctx => exact ⟨ctx, rfl⟩
  obtain ⟨ctx, hg⟩ := hctx
  have hvalid : ctx.is_context_valid now = true := get_context_isValid store now user ctx hg
  have hne : content ≠ "" := extract_nonempty store now user st content h
  unfold handle_follow_up
  rw [hg]
  dsimp only
  rw [hvalid]
  simp only [Bool.true_eq_false, if_false]
  rw [h]
  dsimp only
  rw [if_neg hne]

/-- Witness for C8 at the concrete C4 store: the contributors section is
present, so the response is the found marker plus the extracted bullet
line, with no collaborator call. -/
theorem claimC8_witness :
    extract_summary_section storeC4 0 "u1" "contributors" =
      some "• Alice, Bob participated."
    ∧ handle_follow_up (fun _ _ _ => none) storeC4 0 "u1" (some "contributors") =
      (foundMark ++ "• Alice, Bob participated.", []) :=
  ⟨by decide,
   claimC8 (fun _ _ _ => none) storeC4 0 "u1" "contributors"
     "• Alice, Bob participated." (by decide)⟩

/-- C1 as stated is false: with a valid context, a missed extraction and a
collaborator returning absent, the response is the trouble-analyzing
apology, not the could-not-find-that-information string the claim names. -/
theorem claimC1_counterexample :
    handle_follow_up (fun _ _ _ => none) storeC1 0 "u1" (some "contributors") =
      (troubleMsg, [callC1])
    ∧ troubleMsg ≠ couldntFindMsg := by
  constructor
  · decide
  · decide

/-- C1 amended: with a valid context and a missed extraction, the FOLLOW_UP
branch calls the summarizer collaborator exactly once, with the stored
message list, the section type and the channel name; and whenever the
collaborator returns absent, the response is the fixed trouble-analyzing
apology (the could-not-find-that-information string is only the fallback
for a returned record that lacks a text field). -/
theorem claimC1 (gemini : GeminiFn) (store : ContextStore) (now : Nat)
    (user st : String) (ctx : ConversationContext)
    (hctx : get_context store now user = some ctx)
    (hmiss : extract_summary_section store now user st = none) :
    (handle_follow_up gemini store now user (some st)).2 =
      [{ messages := ctx.last_messages, focus_type := st,
         channel_name := ctx.channel_name }]
    ∧ (gemini ctx.last_messages st ctx.channel_name = none →
       (handle_follow_up gemini store now user (some st)).1 = troubleMsg) := by
  have hvalid : ctx.is_context_valid now = true := get_context_isValid store now user ctx hctx
  unfold handle_follow_up
  rw [hctx]
  dsimp only
  rw [hvalid]
  simp only [Bool.true_eq_false, if_false]
  rw [hmiss]
  unfold followUpRegen
  cases hgem : gemini ctx.last_messages st ctx.channel_name with
  | none => exact ⟨rfl, fun _ => rfl⟩
  | some focused =>
    refine ⟨rfl, fun habs => ?_⟩
    exact absurd habs (by simp [hgem])

/-- Witness for the amended C1 at the concrete store without a contributors
section and a collaborator that returns absent. -/
theorem claimC1_witness :
    (handle_follow_up (fun _ _ _ => none) storeC1 0 "u1" (some "contributors")).2 =
      [{ messages := ctxC1.last_messages, focus_type := "contributors",
         channel_name := ctxC1.channel_name }]
    ∧ ((fun _ _ _ => none : GeminiFn) ctxC1.last_messages "contributors"
        ctxC1.channel_name = none →
       (handle_follow_up (fun _ _ _ => none) storeC1 0 "u1" (some "contributors")).1 =
         troubleMsg) :=
  claimC1 (fun _ _ _ => none) storeC1 0 "u1" "contributors" ctxC1 (by decide) (by decide)

/-- C9: when the collaborator is the source generate_focused_summary wired
to an underlying model call that raises on every prompt, the raised error
never escapes the FOLLOW_UP branch: the user always receives one of the
resolver's own fixed response strings (in the regeneration case the fixed
trouble-analyzing apology), never the error itself. -/
theorem claimC9 (model : String → Except String String)
    (herr : ∀ p, ∃ e, model p = Except.error e)
    (store : ContextStore) (now : Nat) (user : String)
    (section_type : Option String) :
    localResponse
      (handle_follow_up
        (fun msgs ft ch => generate_focused_summary model msgs ft (some ch))
        store now user section_type).1 := by
  unfold handle_follow_up
  cases hg : get_context store now user with
  | none => exact Or.inl rfl
  | some ctx =>
    have hvalid : ctx.is_context_valid now = true := get_context_isValid store now user ctx hg
    dsimp only
    rw [hvalid]
    simp only [Bool.true_eq_false, if_false]
    cases section_type with
    | none => exact Or.inr (Or.inl rfl)
    | some st =>
      have hregen :
          (followUpRegen
            (fun msgs ft ch => generate_focused_summary model msgs ft (some ch))
            ctx st).1 = troubleMsg := by
        unfold followUpRegen generate_focused_summary
        dsimp only
        by_cases hm : ctx.last_messages = []
        · rw [if_pos hm]
        · rw [if_neg hm]
          obtain ⟨e, he⟩ := herr (buildFocusedPrompt st (some ctx.channel_name))
          rw [he]
      dsimp only
      cases hx : extract_summary_section store now user st with
      | none =>
        exact Or.inr (Or.inr (Or.inr hregen))
      | some content =>
        dsimp only
        by_cases hcn : content = ""
        · rw [if_pos hcn]
          exact Or.inr (Or.inr (Or.inr hregen))
        · rw [if_neg hcn]
          exact Or.inr (Or.inr (Or.inl ⟨content, rfl⟩))

/- ## Pattern matcher lemmas for the intent claims -/

theorem subP_lit (w : String) : SubP (lit w) := by
  intro l r h c hc
  unfold lit at h
  by_cases hp : w.data.isPrefixOf l = true
  · rw [if_pos hp] at h
    cases h
    exact List.mem_of_mem_drop hc
  · rw [if_neg hp] at h
    exact absurd h (by simp)

theorem subP_ws1 : SubP ws1 := by
  intro l r h c hc
  unfold ws1 at h
  cases l with
  | nil => exact absurd h (by simp)
  | cons x t =>
    dsimp only at h
    by_cases hx : isPySpace x = true
    · rw [if_pos hx] at h
      cases h
      exact (List.dropWhile_sublist (p := isPySpace)).mem hc
    · rw [if_neg hx] at h
      exact absurd h (by simp)

theorem subP_pseq (p q : Parser) (hp : SubP p) (hq : SubP q) : SubP (pseq p q) := by
  intro l r h c hc
  unfold pseq at h
  cases hpl : p l with
  | none => rw [hpl] at h; exact absurd h (by simp)
  | some m =>
    rw [hpl] at h
    exact hp l m hpl c (hq m r h c hc)

theorem subP_optP (g k : Parser) (hg : SubP g) (hk : SubP k) : SubP (optP g k) := by
  intro l r h c hc
  unfold optP at h
  cases hgl : g l with
  | none =>
    rw [hgl] at h
    exact hk l r h c hc
  | some m =>
    rw [hgl] at h
    dsimp only at h
    cases hkm : k m with
    | some r2 =>
      rw [hkm] at h
      cases h
      exact hg l m hgl c (hk m r hkm c hc)
    | none =>
      rw [hkm] at h
      exact hk l r h c hc

theorem subP_altP (ws : List String) (k : Parser) (hk : SubP k) : SubP (altP ws k) := by
  intro l r h c hc
  unfold altP at h
  induction ws with
  | nil => exact absurd h (by simp)
  | cons w t ih =>
    rw [List.foldr_cons] at h
    cases hw : (lit w l).bind k with
    | some r2 =>
      rw [hw] at h
      cases h
      cases hlw : lit w l with
      | none => rw [hlw] at hw; exact absurd hw (by simp)
      | some m =>
        rw [hlw] at hw
        exact subP_lit w l m hlw c (hk m r hw c hc)
    | none =>
      rw [hw] at h
      exact ih h

theorem subP_phraseSep (ws : List String) : SubP (phraseSep ws) := by
  induction ws with
  | nil =>
    intro l r h c hc
    unfold phraseSep at h
    cases h
    exact hc
  | cons w t ih =>
    cases t with
    | nil => exact subP_lit w
    | cons w2 t2 =>
      exact subP_pseq _ _ (subP_lit w) (subP_pseq _ _ subP_ws1 ih)

theorem subP_whatS : SubP whatS :=
  subP_pseq _ _ (subP_lit "what") (subP_optP _ _ (subP_lit "\x27") (subP_lit "s"))

theorem capChan_mem (l tok : List Char) (h : capChan l = some tok) :
    ∀ c, c ∈ tok → c ∈ l := by
  intro c hc
  unfold capChan at h
  have hsub : ∀ (m : List Char), c ∈ m.takeWhile wordDash → c ∈ m := fun m hm =>
    (List.takeWhile_sublist (p := wordDash)).mem hm
  by_cases hh : l.head? = some '#'
  · rw [if_pos hh] at h
    dsimp only at h
    split at h
    · exact absurd h (by simp)
    · cases h
      exact List.mem_of_mem_tail (hsub l.tail hc)
  · rw [if_neg hh] at h
    dsimp only at h
    split at h
    · exact absurd h (by simp)
    · cases h
      exact hsub l hc

theorem subP_chanPat (pre : Parser) (hpre : SubP pre) : SubP (chanPat pre) := by
  intro l r h c hc
  unfold chanPat at h
  cases hp : pre l with
  | none => rw [hp] at h; exact absurd h (by simp)
  | some l1 =>
    rw [hp] at h
    simp only [Option.bind] at h
    cases hw : ws1 l1 with
    | none => rw [hw] at h; exact absurd h (by simp)
    | some l2 =>
      rw [hw] at h
      exact hpre l l1 hp c (subP_ws1 l1 l2 hw c (capChan_mem l2 r h c hc))

theorem subP_searchP (p : List Char → Option (List Char)) (hp : SubP p) :
    SubP (searchP p) := by
  intro l
  induction l with
  | nil =>
    intro r h c hc
    exact hp [] r h c hc
  | cons x t ih =>
    intro r h c hc
    rw [searchP] at h
    cases hpl : p (x :: t) with
    | some r2 => rw [hpl] at h; cases h; exact hp (x :: t) r hpl c hc
    | none =>
      rw [hpl] at h
      exact List.mem_cons_of_mem x (ih r h c hc)

theorem firstSome_cases {α : Type} (os : List (Option α)) (r : α)
    (h : firstSome os = some r) : ∃ o ∈ os, o = some r := by
  induction os with
  | nil => exact absurd h (by simp [firstSome])
  | cons o t ih =>
    unfold firstSome at h
    cases o with
    | some a =>
      cases h
      exact ⟨some r, List.mem_cons_self _ _, rfl⟩
    | none =>
      obtain ⟨o2, ho2, hr⟩ := ih h
      exact ⟨o2, List.mem_cons_of_mem _ ho2, hr⟩

theorem channelSearch_mem (t ch : List Char) (h : channelSearch t = some ch) :
    ∀ c, c ∈ ch → c ∈ t := by
  have hsub1 : SubP chanPat1 :=
    subP_chanPat _ (subP_pseq _ _ subP_whatS (subP_pseq _ _ subP_ws1 (subP_phraseSep _)))
  have hsub2 : SubP chanPat2 := subP_chanPat _ (subP_lit "summarize")
  have hsub3 : SubP chanPat3 := subP_chanPat _ (subP_phraseSep _)
  have hsub4 : SubP chanPat4 :=
    subP_chanPat _ (subP_pseq _ _ subP_whatS (subP_pseq _ _ subP_ws1 (subP_phraseSep _)))
  have hsub5 : SubP chanPat5 :=
    subP_chanPat _ (subP_pseq _ _ subP_whatS (subP_pseq _ _ subP_ws1 (subP_phraseSep _)))
  unfold channelSearch at h
  obtain ⟨o, ho, hr⟩ := firstSome_cases _ _ h
  intro c hc
  simp only [List.mem_cons, List.not_mem_nil, or_false] at ho
  rcases ho with h1 | h2 | h3 | h4 | h5
  · exact subP_searchP _ hsub1 t ch (h1 ▸ hr) c hc
  · exact subP_searchP _ hsub2 t ch (h2 ▸ hr) c hc
  · exact subP_searchP _ hsub3 t ch (h3 ▸ hr) c hc
  · exact subP_searchP _ hsub4 t ch (h4 ▸ hr) c hc
  · exact subP_searchP _ hsub5 t ch (h5 ▸ hr) c hc

theorem pyLowerChar_not_upper (c : Char) : isUpperAscii (pyLowerChar c) = false := by
  unfold pyLowerChar
  split
  case _ => decide
  case _ => decide
  case _ => decide
  case _ => decide
  case _ => decide
  case _ => decide
  case _ => decide
  case _ => decide
  case _ => decide
  case _ => decide
  case _ => decide
  case _ => decide
  case _ => decide
  case _ => decide
  case _ => decide
  case _ => decide
  case _ => decide
  case _ => decide
  case _ => decide
  case _ => decide
  case _ => decide
  case _ => decide
  case _ => decide
  case _ => decide
  case _ => decide
  case _ => decide
  case _ =>
    unfold isUpperAscii
    split
    all_goals simp_all

theorem mem_pyLower_not_upper (l : List Char) (c : Char) (h : c ∈ pyLower l) :
    isUpperAscii c = false := by
  unfold pyLower at h
  obtain ⟨d, _, rfl⟩ := List.mem_map.mp h
  exact pyLowerChar_not_upper d

theorem mem_pyStrip (l : List Char) (c : Char) (h : c ∈ pyStrip l) : c ∈ l := by
  unfold pyStrip at h
  rw [List.mem_reverse] at h
  have h2 := (List.dropWhile_sublist (p := isPySpace)).mem h
  rw [List.mem_reverse] at h2
  exact (List.dropWhile_sublist (p := isPySpace)).mem h2

theorem recognize_channel_inv (s : String) (c : String)
    (h : (recognize_intent s).channel = some c) :
    channelSearch (pyStrip (pyLower s.data)) = some c.data := by
  unfold recognize_intent at h
  by_cases hg : greetingMatch (pyStrip (pyLower s.data)) = true
  · rw [if_pos hg] at h
    exact absurd h (by simp)
  · rw [if_neg hg] at h
    cases hch : channelSearch (pyStrip (pyLower s.data)) with
    | some ch =>
      rw [hch] at h
      dsimp only at h
      cases h
      rfl
    | none =>
      rw [hch] at h
      dsimp only at h
      by_cases hth : threadSearch (pyStrip (pyLower s.data)) = true
      · rw [if_pos hth] at h
        exact absurd h (by simp)
      · rw [if_neg hth] at h
        cases hfu : followUpSearch (pyStrip (pyLower s.data)) with
        | some st =>
          rw [hfu] at h
          exact absurd h (by simp)
        | none =>
          rw [hfu] at h
          dsimp only at h
          by_cases hfb : containsSub ("feedback".data) (pyStrip (pyLower s.data)) = true
          · rw [if_pos hfb] at h
            exact absurd h (by simp)
          · rw [if_neg hfb] at h
            split at h <;> exact absurd h (by simp)

end SlackBot

namespace SlackBot

/- ## Claims C2, C3, C10 -/

/-- C2 as stated is false: the captured channel token is taken from the
lowercased input, so the letter case as typed is not preserved. -/
theorem claimC2_counterexample :
    recognize_intent "summarize #General" =
      { intent := .channel_summary, channel := some "general" }
    ∧ ("general" : String) ≠ "General" := by
  constructor
  · decide
  · decide

/-- C2 amended: whenever recognize_intent returns a channel field, it is the
token captured by the channel-summary patterns from the lowercased stripped
input (with the leading hash consumed by the pattern), and therefore never
contains an uppercase ASCII letter: case is folded, not preserved as
typed. -/
theorem claimC2 (s : String) (c : String)
    (h : (recognize_intent s).channel = some c) :
    channelSearch (pyStrip (pyLower s.data)) = some c.data
    ∧ c.data.all (fun ch => !(isUpperAscii ch)) = true := by
  have hch := recognize_channel_inv s c h
  refine ⟨hch, ?_⟩
  rw [List.all_eq_true]
  intro x hx
  have hxt : x ∈ pyStrip (pyLower s.data) := channelSearch_mem _ _ hch x hx
  have := mem_pyLower_not_upper (s.data) x (mem_pyStrip _ x hxt)
  simp [this]

/-- Witness for the amended C2 at the concrete input of the counterexample. -/
theorem claimC2_witness :
    channelSearch (pyStrip (pyLower ("summarize #General" : String).data)) =
      some ("general" : String).data
    ∧ ("general" : String).data.all (fun ch => !(isUpperAscii ch)) = true :=
  claimC2 "summarize #General" "general" (by decide)

theorem pseq_inv (p q : Parser) (l r : List Char) (h : pseq p q l = some r) :
    ∃ m, p l = some m ∧ q m = some r := by
  unfold pseq at h
  cases hp : p l with
  | none => rw [hp] at h; exact absurd h (by simp)
  | some m =>
    rw [hp] at h
    exact ⟨m, rfl, h⟩

theorem chanPat_inv (pre : Parser) (l tok : List Char)
    (h : chanPat pre l = some tok) :
    ∃ l1 l2, pre l = some l1 ∧ ws1 l1 = some l2 ∧ capChan l2 = some tok := by
  unfold chanPat at h
  cases hp : pre l with
  | none => rw [hp] at h; exact absurd h (by simp)
  | some l1 =>
    rw [hp] at h
    simp only [Option.bind] at h
    cases hw : ws1 l1 with
    | none => rw [hw] at h; exact absurd h (by simp)
    | some l2 =>
      rw [hw] at h
      exact ⟨l1, l2, rfl, hw, h⟩

theorem searchP_some_drop {α : Type} (p : List Char → Option α) (l : List Char)
    (r : α) (h : searchP p l = some r) : ∃ n, p (l.drop n) = some r := by
  induction l with
  | nil => exact ⟨0, h⟩
  | cons x t ih =>
    rw [searchP] at h
    cases hpl : p (x :: t) with
    | some r2 =>
      rw [hpl] at h
      cases h
      exact ⟨0, hpl⟩
    | none =>
      rw [hpl] at h
      obtain ⟨n, hn⟩ := ih h
      exact ⟨n + 1, by simpa using hn⟩

theorem searchP_isSome_of_drop {α : Type} (p : List Char → Option α)
    (l : List Char) (n : Nat) (r : α) (h : p (l.drop n) = some r) :
    (searchP p l).isSome = true := by
  induction l generalizing n with
  | nil =>
    rw [List.drop_nil] at h
    unfold searchP
    rw [h]
    rfl
  | cons x t ih =>
    rw [searchP]
    cases hpl : p (x :: t) with
    | some r2 => rfl
    | none =>
      cases n with
      | zero =>
        rw [List.drop_zero] at h
        rw [hpl] at h
        exact absurd h (by simp)
      | succ m => exact ih m (by simpa using h)

theorem isPrefixOf_mem : ∀ (w l : List Char), w.isPrefixOf l = true →
    ∀ c ∈ w, c ∈ l := by
  intro w
  induction w with
  | nil =>
    intro l _ c hc
    exact absurd hc (by simp)
  | cons a as ih =>
    intro l hp c hc
    cases l with
    | nil => exact absurd hp (by simp [List.isPrefixOf])
    | cons b bs =>
      unfold List.isPrefixOf at hp
      rw [Bool.and_eq_true] at hp
      obtain ⟨hab, htail⟩ := hp
      have hab2 : a = b := eq_of_beq hab
      rcases List.mem_cons.mp hc with rfl | has
      · exact hab2 ▸ List.mem_cons_self b bs
      · exact List.mem_cons_of_mem b (ih bs htail c has)

theorem isPrefixOf_append_drop : ∀ (w l : List Char), w.isPrefixOf l = true →
    l = w ++ l.drop w.length := by
  intro w
  induction w with
  | nil =>
    intro l _
    simp
  | cons a as ih =>
    intro l hp
    cases l with
    | nil => exact absurd hp (by simp [List.isPrefixOf])
    | cons b bs =>
      unfold List.isPrefixOf at hp
      rw [Bool.and_eq_true] at hp
      obtain ⟨hab, htail⟩ := hp
      have hab2 : a = b := eq_of_beq hab
      subst hab2
      simpa using ih bs htail

theorem lit_mem (w : String) (l r : List Char) (h : lit w l = some r) :
    ∀ c ∈ w.data, c ∈ l := by
  unfold lit at h
  by_cases hp : w.data.isPrefixOf l = true
  · exact isPrefixOf_mem w.data l hp
  · rw [if_neg hp] at h
    exact absurd h (by simp)

theorem greeting_chars (t : List Char) (hg : greetingMatch t = true) :
    ∀ c ∈ t, greetChar c = true := by
  unfold greetingMatch at hg
  rw [List.any_eq_true] at hg
  obtain ⟨w, hw, hcond⟩ := hg
  rw [Bool.and_eq_true] at hcond
  obtain ⟨hpre0, hrest⟩ := hcond
  intro c hc
  have hdecomp := isPrefixOf_append_drop w.data t hpre0
  rw [hdecomp] at hc
  rcases List.mem_append.mp hc with hl | hr
  · have hall : ∀ w2 ∈ greetWords, ∀ c2 ∈ w2.data, greetChar c2 = true := by decide
    exact hall w hw c hl
  · rw [List.all_eq_true] at hrest
    have hsp : isPySpace c = true ∨ (c == '!') = true := by
      simpa using hrest c hr
    unfold greetChar
    rcases hsp with h1 | h1
    · rw [h1]
      simp
    · rw [h1]
      simp

theorem channelSearch_has_wsu (t ch : List Char) (h : channelSearch t = some ch) :
    ∃ c ∈ t, c = 'w' ∨ c = 's' ∨ c = 'u' := by
  unfold channelSearch at h
  obtain ⟨o, ho, hr⟩ := firstSome_cases _ _ h
  simp only [List.mem_cons, List.not_mem_nil, or_false] at ho
  have hwhat : ∀ (pre : Parser) (l1 : List Char) (n : Nat),
      (pseq whatS pre) (t.drop n) = some l1 → ∃ c ∈ t, c = 'w' ∨ c = 's' ∨ c = 'u' := by
    intro pre l1 n hp
    obtain ⟨m, hm, _⟩ := pseq_inv _ _ _ _ hp
    obtain ⟨m2, hm2, _⟩ := pseq_inv _ _ _ _ hm
    have hwmem : 'w' ∈ t.drop n := lit_mem "what" _ _ hm2 'w' (by decide)
    exact ⟨'w', List.mem_of_mem_drop hwmem, Or.inl rfl⟩
  rcases ho with h1 | h2 | h3 | h4 | h5
  · obtain ⟨n, hp⟩ := searchP_some_drop _ _ _ (h1 ▸ hr)
    obtain ⟨l1, l2, hpre, _, _⟩ := chanPat_inv _ _ _ hp
    exact hwhat _ l1 n hpre
  · obtain ⟨n, hp⟩ := searchP_some_drop _ _ _ (h2 ▸ hr)
    obtain ⟨l1, l2, hpre, _, _⟩ := chanPat_inv _ _ _ hp
    have hsmem : 's' ∈ t.drop n := lit_mem "summarize" _ _ hpre 's' (by decide)
    exact ⟨'s', List.mem_of_mem_drop hsmem, Or.inr (Or.inl rfl)⟩
  · obtain ⟨n, hp⟩ := searchP_some_drop _ _ _ (h3 ▸ hr)
    obtain ⟨l1, l2, hpre, _, _⟩ := chanPat_inv _ _ _ hp
    obtain ⟨m, hm, _⟩ := pseq_inv (lit "update") (pseq ws1 (phraseSep ["on"])) _ _ hpre
    have humem : 'u' ∈ t.drop n := lit_mem "update" _ _ hm 'u' (by decide)
    exact ⟨'u', List.mem_of_mem_drop humem, Or.inr (Or.inr rfl)⟩
  · obtain ⟨n, hp⟩ := searchP_some_drop _ _ _ (h4 ▸ hr)
    obtain ⟨l1, l2, hpre, _, _⟩ := chanPat_inv _ _ _ hp
    exact hwhat _ l1 n hpre
  · obtain ⟨n, hp⟩ := searchP_some_drop _ _ _ (h5 ▸ hr)
    obtain ⟨l1, l2, hpre, _, _⟩ := chanPat_inv _ _ _ hp
    exact hwhat _ l1 n hpre

theorem greet_chan_none (t ch : List Char) (h : channelSearch t = some ch) :
    greetingMatch t = false := by
  by_contra hg
  rw [Bool.not_eq_false] at hg
  obtain ⟨c, hct, hcw⟩ := channelSearch_has_wsu t ch h
  have hgc := greeting_chars t hg c hct
  rcases hcw with rfl | rfl | rfl <;> exact absurd hgc (by decide)

/-- C3: an input matched by both a channel-summary pattern and a follow-up
pattern is classified CHANNEL_SUMMARY, never FOLLOW_UP, because the cascade
checks greeting, then channel summary, then thread summary, then follow-up,
and the first matching group wins (and a channel-summary match excludes a
greeting match). -/
theorem claimC3 (s : String) (ch : List Char) (st : String)
    (hc : channelSearch (pyStrip (pyLower s.data)) = some ch)
    (_hf : followUpSearch (pyStrip (pyLower s.data)) = some st) :
    recognize_intent s =
      { intent := .channel_summary, channel := some (String.mk ch) } := by
  unfold recognize_intent
  dsimp only
  rw [greet_chan_none _ _ hc]
  simp only [Bool.false_eq_true, if_false]
  rw [hc]

/-- Witness for C3 on a crafted input matching both a channel-summary and a
follow-up (contributors) pattern. -/
theorem claimC3_witness :
    recognize_intent "summarize #general who contributed" =
      { intent := .channel_summary, channel := some "general" } :=
  claimC3 "summarize #general who contributed" ("general" : String).data
    "contributors" (by decide) (by decide)

theorem lit_inv (w : String) (l r : List Char) (h : lit w l = some r) :
    w.data.isPrefixOf l = true := by
  unfold lit at h
  by_cases hp : w.data.isPrefixOf l = true
  · exact hp
  · rw [if_neg hp] at h
    exact absurd h (by simp)

theorem cons_of_lit_head (x : Char) (w : List Char) (l : List Char)
    (h : (x :: w).isPrefixOf l = true) : ∃ tl, l = x :: tl := by
  cases l with
  | nil => exact absurd h (by simp [List.isPrefixOf])
  | cons b bs =>
    unfold List.isPrefixOf at h
    rw [Bool.and_eq_true] at h
    have hb : x = b := eq_of_beq h.1
    subst hb
    exact ⟨bs, rfl⟩

theorem capChan_cons_word (x : Char) (tl : List Char) (hx : wordDash x = true)
    (hnh : (x = '#') = False) :
    capChan (x :: tl) = some (x :: tl.takeWhile wordDash) := by
  unfold capChan
  have h1 : ¬((x :: tl).head? = some '#') := by
    simp only [List.head?_cons, Option.some.injEq]
    intro habs
    rw [hnh] at habs
    exact habs
  rw [if_neg h1]
  dsimp only
  rw [List.takeWhile_cons, if_pos hx, if_neg (by simp)]

theorem firstSome_isSome {α : Type} (os : List (Option α))
    (h : (firstSome os).isSome = true) : ∃ o ∈ os, o.isSome = true := by
  induction os with
  | nil => exact absurd h (by simp [firstSome])
  | cons o t ih =>
    unfold firstSome at h
    cases o with
    | some a => exact ⟨some a, List.mem_cons_self _ _, rfl⟩
    | none =>
      obtain ⟨o2, ho2, hs⟩ := ih h
      exact ⟨o2, List.mem_cons_of_mem _ ho2, hs⟩

theorem firstSome_isSome_of_mem {α : Type} (os : List (Option α)) (o : Option α)
    (ho : o ∈ os) (h : o.isSome = true) : (firstSome os).isSome = true := by
  induction os with
  | nil => exact absurd ho (by simp)
  | cons x t ih =>
    unfold firstSome
    cases hx : x with
    | some a => rfl
    | none =>
      rcases List.mem_cons.mp ho with rfl | hot
      · rw [hx] at h
        exact absurd h (by simp)
      · exact ih hot

/-- The thread pattern summarize-thread is shadowed by the second
channel-summary pattern: any text it matches also yields a channel capture
(the word thread itself). -/
theorem threadPat1_chanPat2 (l : List Char) (r : List Char)
    (h : threadPat1 l = some r) : ∃ tok, chanPat2 l = some tok := by
  have h0 : pseq (lit "summarize") (pseq ws1 (lit "thread")) l = some r := h
  obtain ⟨l1, h1, h2⟩ := pseq_inv _ _ _ _ h0
  obtain ⟨l2, hw, h3⟩ := pseq_inv _ _ _ _ h2
  obtain ⟨tl, rfl⟩ := cons_of_lit_head 't' ("hread".data) l2 (lit_inv "thread" _ _ h3)
  refine ⟨'t' :: tl.takeWhile wordDash, ?_⟩
  show chanPat (lit "summarize") l = some _
  unfold chanPat
  rw [h1]
  simp only [Option.bind]
  rw [hw]
  exact capChan_cons_word 't' tl (by decide) (by simp)

/-- The thread pattern about what is happening in this thread is shadowed by
the first channel-summary pattern, which captures the word this. -/
theorem threadPat3_chanPat1 (l : List Char) (r : List Char)
    (h : threadPat3 l = some r) : ∃ tok, chanPat1 l = some tok := by
  obtain ⟨a, ha, h2⟩ := pseq_inv whatS _ _ _ h
  obtain ⟨b, hb, h3⟩ := pseq_inv ws1 _ _ _ h2
  have h3' : pseq (lit "happening")
      (pseq ws1 (phraseSep ["in", "this", "thread"])) b = some r := h3
  obtain ⟨c1, hc1, h4⟩ := pseq_inv _ _ _ _ h3'
  obtain ⟨d, hd, h5⟩ := pseq_inv _ _ _ _ h4
  have h5' : pseq (lit "in") (pseq ws1 (phraseSep ["this", "thread"])) d = some r := h5
  obtain ⟨e, he, h6⟩ := pseq_inv _ _ _ _ h5'
  obtain ⟨f, hf2, h7⟩ := pseq_inv _ _ _ _ h6
  have h7' : pseq (lit "this") (pseq ws1 (lit "thread")) f = some r := h7
  obtain ⟨g2, hg2, _⟩ := pseq_inv _ _ _ _ h7'
  obtain ⟨tf, rfl⟩ := cons_of_lit_head 't' ("his".data) f (lit_inv "this" _ _ hg2)
  refine ⟨'t' :: tf.takeWhile wordDash, ?_⟩
  show chanPat (pseq whatS (pseq ws1 (phraseSep ["happening", "in"]))) l = some _
  unfold chanPat
  have hpre_l : (pseq whatS (pseq ws1 (phraseSep ["happening", "in"]))) l = some e := by
    have hphr : phraseSep ["happening", "in"] b = some e := by
      show pseq (lit "happening") (pseq ws1 (lit "in")) b = some e
      unfold pseq
      rw [hc1]
      simp only [Option.bind]
      rw [hd]
      simp only [Option.bind]
      exact he
    unfold pseq
    rw [ha]
    simp only [Option.bind]
    rw [hb]
    simp only [Option.bind]
    exact hphr
  rw [hpre_l]
  simp only [Option.bind]
  rw [hf2]
  exact capChan_cons_word 't' tf (by decide) (by simp)

/-- Classification as THREAD_SUMMARY means the thread group matched and all
earlier groups, in particular the channel-summary group, did not. -/
theorem recognize_thread_inv (s : String)
    (h : (recognize_intent s).intent = .thread_summary) :
    channelSearch (pyStrip (pyLower s.data)) = none ∧
    threadSearch (pyStrip (pyLower s.data)) = true := by
  unfold recognize_intent at h
  dsimp only at h
  by_cases hg : greetingMatch (pyStrip (pyLower s.data)) = true
  · rw [if_pos hg] at h
    exact absurd h (by decide)
  · rw [if_neg hg] at h
    cases hch : channelSearch (pyStrip (pyLower s.data)) with
    | some ch =>
      rw [hch] at h
      dsimp only at h
      exact absurd h (by decide)
    | none =>
      rw [hch] at h
      dsimp only at h
      by_cases hth : threadSearch (pyStrip (pyLower s.data)) = true
      · exact ⟨rfl, hth⟩
      · rw [if_neg hth] at h
        exfalso
        cases hfu : followUpSearch (pyStrip (pyLower s.data)) with
        | some st =>
          rw [hfu] at h
          dsimp only at h
          exact absurd h (by decide)
        | none =>
          rw [hfu] at h
          dsimp only at h
          split at h
          · exact absurd h (by decide)
          · split at h
            · exact absurd h (by decide)
            · exact absurd h (by decide)

/-- C10: the phrases summarize thread and what is happening in this thread
are classified CHANNEL_SUMMARY with captured channels thread and this, not
THREAD_SUMMARY, while thread summary and what is this thread about do reach
THREAD_SUMMARY; moreover THREAD_SUMMARY is reachable only through the
second and fourth thread patterns, because the first and third are shadowed
by channel-summary patterns checked earlier. -/
theorem claimC10 :
    recognize_intent "summarize thread" =
      { intent := .channel_summary, channel := some "thread" }
    ∧ recognize_intent "what\x27s happening in this thread" =
      { intent := .channel_summary, channel := some "this" }
    ∧ recognize_intent "thread summary" = { intent := .thread_summary }
    ∧ recognize_intent "what\x27s this thread about" = { intent := .thread_summary }
    ∧ (∀ s : String, (recognize_intent s).intent = .thread_summary →
        (searchP threadPat2 (pyStrip (pyLower s.data))).isSome = true
        ∨ (searchP threadPat4 (pyStrip (pyLower s.data))).isSome = true) := by
  refine ⟨by decide, by decide, by decide, by decide, ?_⟩
  intro s h
  obtain ⟨hch, hth⟩ := recognize_thread_inv s h
  unfold threadSearch at hth
  obtain ⟨o, ho, hos⟩ := firstSome_isSome _ hth
  simp only [List.mem_cons, List.not_mem_nil, or_false] at ho
  rcases ho with h1 | h2 | h3 | h4
  · exfalso
    subst h1
    obtain ⟨r, hr⟩ := Option.isSome_iff_exists.mp hos
    obtain ⟨n, hp⟩ := searchP_some_drop _ _ _ hr
    obtain ⟨tok, htok⟩ := threadPat1_chanPat2 _ _ hp
    have hs2 := searchP_isSome_of_drop chanPat2 _ n tok htok
    have hcs : (channelSearch (pyStrip (pyLower s.data))).isSome = true := by
      unfold channelSearch
      exact firstSome_isSome_of_mem _ _ (by simp) hs2
    rw [hch] at hcs
    exact absurd hcs (by simp)
  · subst h2
    exact Or.inl hos
  · exfalso
    subst h3
    obtain ⟨r, hr⟩ := Option.isSome_iff_exists.mp hos
    obtain ⟨n, hp⟩ := searchP_some_drop _ _ _ hr
    obtain ⟨tok, htok⟩ := threadPat3_chanPat1 _ _ hp
    have hs1 := searchP_isSome_of_drop chanPat1 _ n tok htok
    have hcs : (channelSearch (pyStrip (pyLower s.data))).isSome = true := by
      unfold channelSearch
      exact firstSome_isSome_of_mem _ _ (by simp) hs1
    rw [hch] at hcs
    exact absurd hcs (by simp)
  · subst h4
    exact Or.inr hos

/-- Witness for the universal part of C10 at the phrase thread summary. -/
theorem claimC10_witness :
    (searchP threadPat2 (pyStrip (pyLower ("thread summary" : String).data))).isSome = true
    ∨ (searchP threadPat4 (pyStrip (pyLower ("thread summary" : String).data))).isSome = true :=
  claimC10.2.2.2.2 "thread summary" (by decide)

/-- Witness for C9: a model that raises on every prompt, against the store
whose summary lacks the requested section, still yields one of the fixed
local responses. -/
theorem claimC9_witness :
    localResponse
      (handle_follow_up
        (fun msgs ft ch =>
          generate_focused_summary (fun _ => Except.error "boom") msgs ft (some ch))
        storeC1 0 "u1" (some "contributors")).1 :=
  claimC9 (fun _ => Except.error "boom") (fun _ => ⟨"boom", rfl⟩)
    storeC1 0 "u1" (some "contributors")

end SlackBot
